import Mathlib

/-!
A shallow embedding of `microdata.py`: extraction of microdata Items
(`itemscope` / `itemtype` / `itemid` / `itemprop`) from a parsed HTML
document tree, together with theorems about the extraction algorithm.

The document tree is modeled after the lxml element view the source code
consumes: every node has a tag, an attribute list, leading text (`.text`),
ordered element children, and trailing text (`.tail`).  Python `None` for a
missing attribute or text is modeled with `Option`; Python string
truthiness (both `None` and `""` are falsy) is made explicit.
-/

namespace Microdata

/-- A parsed document element: tag name, attributes (unique keys, in
document order), leading text (lxml `.text`), ordered child elements, and
trailing text (lxml `.tail`).  In this embedding every tree node is an
element, so the source's `_is_element` test is always true. -/
inductive Elem where
  | mk (tag : String) (attrs : List (String × String)) (text : Option String)
      (children : List Elem) (tail : Option String)

def Elem.tag : Elem → String
  | .mk t _ _ _ _ => t

def Elem.attrs : Elem → List (String × String)
  | .mk _ a _ _ _ => a

def Elem.text : Elem → Option String
  | .mk _ _ tx _ _ => tx

def Elem.children : Elem → List Elem
  | .mk _ _ _ cs _ => cs

def Elem.tail : Elem → Option String
  | .mk _ _ _ _ tl => tl

/-- Attribute lookup in an attribute list (first match; keys are unique). -/
def getAttrList : List (String × String) → String → Option String
  | [], _ => none
  | (k, v) :: r, n => if k = n then some v else getAttrList r n

/-- Models `_attr(e, name)`, i.e. `e.get(name, None)`. -/
def _attr (e : Elem) (name : String) : Option String :=
  getAttrList e.attrs name

/-- Models `_is_itemscope(e)`: the `itemscope` attribute is present (with any
value, including the empty string). -/
def _is_itemscope (e : Elem) : Bool :=
  (_attr e "itemscope").isSome

/-- Python truthiness of an optional string: `None` and `""` are falsy. -/
def strTruthy : Option String → Bool
  | none => false
  | some s => s ≠ ""

/-- Python `s.split(" ")` on a list of characters: split at every single
space character, keeping empty pieces (`"".split(" ") == [""]`,
`"a  b".split(" ") == ["a", "", "b"]`, and no splitting happens at tabs or
other whitespace). -/
def splitSpaceChars : List Char → List (List Char)
  | [] => [[]]
  | c :: cs =>
    let r := splitSpaceChars cs
    if c = ' ' then [] :: r
    else
      match r with
      | [] => [[c]]
      | g :: gs => (c :: g) :: gs

/-- Python `s.split(" ")`. -/
def pySplit (s : String) : List String :=
  (splitSpaceChars s.data).map String.mk

/-- The `URI` wrapper class.  Its payload is optional because the source
constructs `URI(e.get(attrib))` even when the attribute is absent, wrapping
Python `None`. -/
structure URI where
  string : Option String
deriving DecidableEq

mutual
/-- A microdata `Item`: the optional `itemtype` URI list and `itemid` URI
(absent when the corresponding constructor argument was falsy), and the
`props` dictionary, modeled as an insertion-ordered association list with
unique keys (Python dict semantics). -/
inductive Item where
  | mk (itemtype : Option (List URI)) (itemid : Option URI)
      (props : List (String × List PropValue))

/-- A property value as stored by the source: Python `None` (a mapped
attribute that is absent), a plain string, a `URI` object, or a nested
`Item`. -/
inductive PropValue where
  | null
  | str (s : String)
  | uri (u : URI)
  | item (it : Item)
end

def Item.itemtype : Item → Option (List URI)
  | .mk t _ _ => t

def Item.itemid : Item → Option URI
  | .mk _ i _ => i

def Item.props : Item → List (String × List PropValue)
  | .mk _ _ p => p

/-- The property-dictionary update behind `Item.set`: append to the value
list of an existing name (in place), or add a new name at the end. -/
def setProps : List (String × List PropValue) → String → PropValue →
    List (String × List PropValue)
  | [], name, value => [(name, [value])]
  | (k, vs) :: rest, name, value =>
    if k = name then (k, vs ++ [value]) :: rest
    else (k, vs) :: setProps rest name value

/-- Models `Item.set(name, value)`. -/
def Item.set : Item → String → PropValue → Item
  | .mk t i ps, name, value => .mk t i (setProps ps name value)

/-- Value-list lookup behind `Item.get_all`. -/
def getAllProps : List (String × List PropValue) → String → List PropValue
  | [], _ => []
  | (k, vs) :: rest, name => if k = name then vs else getAllProps rest name

/-- Models `Item.get_all(name)`: all values for a property, `[]` when unset. -/
def Item.get_all (it : Item) (name : String) : List PropValue :=
  getAllProps it.props name

/-- Models `Item.get(name)`: the first value, or Python `None` (here `none`) when
the property is not set. -/
def Item.get (it : Item) (name : String) : Option PropValue :=
  (it.get_all name).head?

/-- Models `Item.__init__(itemtype, itemid)`: both attributes are guarded by
Python truthiness (`if itemtype:` / `if itemid:`), and a truthy `itemtype`
is split on single spaces into a list of `URI`s. -/
def Item.init (itemtype itemid : Option String) : Item :=
  .mk
    (if strTruthy itemtype then
      some ((pySplit (itemtype.getD "")).map (fun i => URI.mk (some i)))
    else none)
    (if strTruthy itemid then some (URI.mk itemid) else none)
    []

/-- Models `_make_item(e)`: `none` models the `ValueError` raised when the node
has no itemscope attribute. -/
def _make_item (e : Elem) : Option Item :=
  if _is_itemscope e then
    some (Item.init (_attr e "itemtype") (_attr e "itemid"))
  else none

/-- The Item `_make_item` builds at a node that carries itemscope.  Both
call sites in the source (`_find_items`, `_extract`) test
`_is_itemscope` first, so the raising branch of `_make_item` is
unreachable from them. -/
def initItem (e : Elem) : Item :=
  Item.init (_attr e "itemtype") (_attr e "itemid")

theorem make_item_of_itemscope (e : Elem) (h : _is_itemscope e = true) :
    _make_item e = some (initItem e) := by
  simp [_make_item, initItem, h]

/-- The predicate `_text` passes to `_textiter`: `el.tag != 'script'`. -/
def notScript (e : Elem) : Bool :=
  e.tag ≠ "script"

mutual
/-- The strings `_textiter` yields for the start/end events of a non-root
element: its `.text` at the start event and its `.tail` at the end event,
each only when the predicate accepts the element.  The walk still descends
into the element's children even when the predicate rejects it (the
predicate filters single events, it does not prune subtrees).  `None`
texts are skipped by the generator, modeled by `Option.toList`. -/
def _textiter : Elem → List String
  | e@(.mk _ _ _ cs _) =>
    (if notScript e then e.text.toList else []) ++
      textiterList cs ++
      (if notScript e then e.tail.toList else [])

def textiterList : List Elem → List String
  | [] => []
  | c :: cs => _textiter c ++ textiterList cs
end

/-- Models `_text(e)`: the joined event texts.  The root gets a start event (its
`.text`, predicate permitting) but its `.tail` is never yielded
(`element is not node`). -/
def _text (e : Elem) : String :=
  String.join
    ((if notScript e then e.text.toList else []) ++ textiterList e.children)

/-- The `property_values` tag → default attribute table. -/
def property_values : String → Option String
  | "meta" => some "content"
  | "audio" => some "src"
  | "embed" => some "src"
  | "iframe" => some "src"
  | "img" => some "src"
  | "source" => some "src"
  | "video" => some "src"
  | "a" => some "href"
  | "area" => some "href"
  | "link" => some "href"
  | "object" => some "data"
  | "time" => some "datetime"
  | _ => none

/-- Models `_property_value(e)`: for a tag mapped to `href`/`src` the value is a
`URI` wrapping the (possibly absent) attribute; for another mapped tag it
is the raw attribute value (Python `None` when absent); otherwise it is
the `content` attribute when truthy (`e.get("content") or _text(e)`), else
the computed text. -/
def _property_value (e : Elem) : PropValue :=
  match property_values e.tag with
  | some a =>
    if a = "href" ∨ a = "src" then .uri (URI.mk (_attr e a))
    else
      match _attr e a with
      | some s => .str s
      | none => .null
  | none =>
    match _attr e "content" with
    | some s => if s ≠ "" then .str s else .str (_text e)
    | none => .str (_text e)

mutual
/-- Models `_extract(e, item)`: walk the children of `e`, assigning properties to
`item`; the returned item is the input with all discovered properties
appended, and the returned list is the unlinked elements in the order they
were encountered. -/
def _extract : Elem → Item → Item × List Elem
  | .mk _ _ _ cs _, item => extractChildren cs item

/-- The child loop of `_extract`, threading the mutated item. -/
def extractChildren : List Elem → Item → Item × List Elem
  | [], item => (item, [])
  | child :: rest, item =>
    let itemprop := _attr child "itemprop"
    if strTruthy itemprop && _is_itemscope child then
      -- a nested item: extract its own subtree into a fresh Item, then
      -- record it on `item` under the UNSPLIT itemprop string
      let r1 := _extract child (initItem child)
      let r2 := extractChildren rest (item.set (itemprop.getD "") (.item r1.1))
      (r2.1, r1.2 ++ r2.2)
    else if strTruthy itemprop then
      -- a plain property: one value, appended under every single-space
      -- separated name, then keep extracting inside `child` into `item`
      let value := _property_value child
      let item1 := (pySplit (itemprop.getD "")).foldl
        (fun acc i => acc.set i value) item
      let r1 := _extract child item1
      let r2 := extractChildren rest r1.1
      (r2.1, r1.2 ++ r2.2)
    else if _is_itemscope child then
      -- unlinked: remember the child, do not descend into it
      let r2 := extractChildren rest item
      (r2.1, child :: r2.2)
    else
      -- transparent container
      let r1 := _extract child item
      let r2 := extractChildren rest r1.1
      (r2.1, r1.2 ++ r2.2)
end

theorem extract_eq_children (e : Elem) (item : Item) :
    _extract e item = extractChildren e.children item := by
  cases e
  rfl

/-- Branch equation: a child with truthy itemprop and itemscope (a nested
item). -/
theorem extractChildren_cons_nested (child : Elem) (rest : List Elem)
    (item : Item) (h1 : strTruthy (_attr child "itemprop") = true)
    (h2 : _is_itemscope child = true) :
    extractChildren (child :: rest) item =
      ((extractChildren rest (item.set ((_attr child "itemprop").getD "")
          (.item (_extract child (initItem child)).1))).1,
        (_extract child (initItem child)).2 ++
          (extractChildren rest (item.set ((_attr child "itemprop").getD "")
            (.item (_extract child (initItem child)).1))).2) := by
  rw [extractChildren]
  simp [h1, h2]

/-- Branch equation: a child with truthy itemprop and no itemscope (a plain
property). -/
theorem extractChildren_cons_prop (child : Elem) (rest : List Elem)
    (item : Item) (h1 : strTruthy (_attr child "itemprop") = true)
    (h2 : _is_itemscope child = false) :
    extractChildren (child :: rest) item =
      ((extractChildren rest
          (_extract child ((pySplit ((_attr child "itemprop").getD "")).foldl
            (fun acc i => acc.set i (_property_value child)) item)).1).1,
        (_extract child ((pySplit ((_attr child "itemprop").getD "")).foldl
            (fun acc i => acc.set i (_property_value child)) item)).2 ++
          (extractChildren rest
            (_extract child ((pySplit ((_attr child "itemprop").getD "")).foldl
              (fun acc i => acc.set i (_property_value child)) item)).1).2) := by
  rw [extractChildren]
  simp [h1, h2]

/-- Branch equation: a child with itemscope but no truthy itemprop (an
unlinked element, not descended into). -/
theorem extractChildren_cons_unlinked (child : Elem) (rest : List Elem)
    (item : Item) (h1 : strTruthy (_attr child "itemprop") = false)
    (h2 : _is_itemscope child = true) :
    extractChildren (child :: rest) item =
      ((extractChildren rest item).1,
        child :: (extractChildren rest item).2) := by
  rw [extractChildren]
  simp [h1, h2]

/-- Branch equation: a transparent child (no truthy itemprop, no
itemscope). -/
theorem extractChildren_cons_plain (child : Elem) (rest : List Elem)
    (item : Item) (h1 : strTruthy (_attr child "itemprop") = false)
    (h2 : _is_itemscope child = false) :
    extractChildren (child :: rest) item =
      ((extractChildren rest (_extract child item).1).1,
        (_extract child item).2 ++
          (extractChildren rest (_extract child item).1).2) := by
  rw [extractChildren]
  simp [h1, h2]

theorem sizeOf_children_lt (e : Elem) : sizeOf e.children < sizeOf e := by
  cases e with
  | mk t a tx cs tl =>
    simp [Elem.children]
    omega

mutual
/-- Every unlinked element returned by `_extract` is a strict subtree of
the extracted node (needed to justify the recursion in `_find_items`). -/
theorem extract_unlinked_sizeOf : ∀ (e : Elem) (item : Item) (x : Elem),
    x ∈ (_extract e item).2 → sizeOf x < sizeOf e
  | .mk t a tx cs tl, item, x, h => by
    have hx := extractChildren_unlinked_sizeOf cs item x
      (by simpa [_extract] using h)
    simp
    omega

theorem extractChildren_unlinked_sizeOf :
    ∀ (cs : List Elem) (item : Item) (x : Elem),
      x ∈ (extractChildren cs item).2 → sizeOf x < sizeOf cs
  | [], item, x, h => by simp [extractChildren] at h
  | child :: rest, item, x, h => by
    by_cases h1 : strTruthy (_attr child "itemprop") = true
    · by_cases h2 : _is_itemscope child = true
      · rw [extractChildren_cons_nested child rest item h1 h2] at h
        rcases List.mem_append.1 h with hl | hr
        · have := extract_unlinked_sizeOf child (initItem child) x hl
          simp
          omega
        · have := extractChildren_unlinked_sizeOf rest _ x hr
          simp
          omega
      · rw [extractChildren_cons_prop child rest item h1
          (Bool.eq_false_iff.2 h2)] at h
        rcases List.mem_append.1 h with hl | hr
        · have := extract_unlinked_sizeOf child _ x hl
          simp
          omega
        · have := extractChildren_unlinked_sizeOf rest _ x hr
          simp
          omega
    · by_cases h2 : _is_itemscope child = true
      · rw [extractChildren_cons_unlinked child rest item
          (Bool.eq_false_iff.2 h1) h2] at h
        rcases List.mem_cons.1 h with hl | hr
        · subst hl
          simp
          omega
        · have := extractChildren_unlinked_sizeOf rest item x hr
          simp
          omega
      · rw [extractChildren_cons_plain child rest item
          (Bool.eq_false_iff.2 h1) (Bool.eq_false_iff.2 h2)] at h
        rcases List.mem_append.1 h with hl | hr
        · have := extract_unlinked_sizeOf child item x hl
          simp
          omega
        · have := extractChildren_unlinked_sizeOf rest _ x hr
          simp
          omega
end

/-- Models `_find_items(e)`: at an itemscope element, build its Item, extract its
properties, and emit the Item followed by the items found from each
unlinked element in order; elsewhere, concatenate the results of the
children.  (In this embedding every node is an element, so the source's
`_is_element(e)` conjunct is always true.) -/
def _find_items (e : Elem) : List Item :=
  if _is_itemscope e then
    (_extract e (initItem e)).1 ::
      ((_extract e (initItem e)).2.attach.flatMap fun c => _find_items c.1)
  else
    e.children.attach.flatMap fun c => _find_items c.1
termination_by sizeOf e
decreasing_by
  · exact extract_unlinked_sizeOf e (initItem e) c.1 c.2
  · exact Nat.lt_trans (List.sizeOf_lt_of_mem c.2) (sizeOf_children_lt e)

/-- Unfolding of `_find_items` at an itemscope element. -/
theorem find_items_scoped (e : Elem) (h : _is_itemscope e = true) :
    _find_items e =
      (_extract e (initItem e)).1 ::
        ((_extract e (initItem e)).2.flatMap _find_items) := by
  rw [_find_items.eq_def]
  simp [h]

/-- Unfolding of `_find_items` at a non-itemscope element. -/
theorem find_items_not_scoped (e : Elem) (h : _is_itemscope e = false) :
    _find_items e = e.children.flatMap _find_items := by
  rw [_find_items.eq_def]
  simp [h]

/-- A JSON-ready Python value as produced by `json_dict`.  The `raw` case
records a non-JSON-native Python object (a `URI` or `Item` instance) that
one degenerate fallback path of `json_dict` can place into the dict
unconverted. -/
inductive Json where
  | null
  | str (s : String)
  | arr (elems : List Json)
  | obj (fields : List (String × Json))
  | raw (v : PropValue)

/-- The value `u.string` placed into a JSON structure (Python `None` becomes JSON
null). -/
def uriToJson (u : URI) : Json :=
  match u.string with
  | some s => .str s
  | none => .null

/-- Python truthiness of a stored property value: `None` and `""` are
falsy; `URI` and `Item` objects are always truthy. -/
def pvTruthy : PropValue → Bool
  | .null => false
  | .str s => s ≠ ""
  | .uri _ => true
  | .item _ => true

/-- The `type` entry of `json_dict`.  `if self.itemtype:` reads the
constructor-set field when present (a non-empty list is truthy); when the
field was never set, Python falls back to `__getattr__`, i.e.
`self.get("itemtype")`.  A falsy fallback yields no key; a truthy fallback
makes `[i.string for i in self.itemtype]` raise (strings iterate into
characters without `.string`, `URI` and `Item` objects are not iterable),
modeled by `none`. -/
def typeField (it : Item) : Option (List (String × Json)) :=
  match it.itemtype with
  | some ts => if ts.isEmpty then some [] else some [("type", .arr (ts.map uriToJson))]
  | none =>
    match it.get "itemtype" with
    | none => some []
    | some .null => some []
    | some (.str s) => if s = "" then some [] else none
    | some (.uri _) => none
    | some (.item _) => none

/-- The `id` entry of `json_dict`, with the same `__getattr__` fallback for
`if self.itemid:`.  On a truthy fallback, `self.itemid.string` raises for a
plain string (chars have no `.string`), reads the `.string` field of a
`URI`, and for an `Item` goes through `__getattr__` again, storing
`sub.get("string")` raw. -/
def idField (it : Item) : Option (List (String × Json)) :=
  match it.itemid with
  | some u => some [("id", uriToJson u)]
  | none =>
    match it.get "itemid" with
    | none => some []
    | some .null => some []
    | some (.str s) => if s = "" then some [] else none
    | some (.uri u) => some [("id", uriToJson u)]
    | some (.item sub) =>
      some [("id",
        match sub.get "string" with
        | none => .null
        | some (.str s) => .str s
        | some .null => .null
        | some w => .raw w)]

mutual
/-- Models `Item.json_dict()`: the dict with the optional `type` and `id` keys and
the always-present `properties` key.  `none` models a raised exception
(possible only through the degenerate truthy-`__getattr__` fallbacks
above, possibly in a nested item). -/
def json_dict : Item → Option Json
  | it@(.mk _ _ ps) =>
    match typeField it, idField it, jsonPropsConv ps with
    | some tf, some idf, some pf =>
      some (.obj (tf ++ idf ++ [("properties", .obj pf)]))
    | _, _, _ => none

/-- Conversion of one stored value: nested `Item`s recursively through
`json_dict`, `URI`s to their string, strings and `None` as themselves. -/
def jsonValueConv : PropValue → Option Json
  | .item sub => json_dict sub
  | .uri u => some (uriToJson u)
  | .str s => some (.str s)
  | .null => some .null

def jsonValuesConv : List PropValue → Option (List Json)
  | [] => some []
  | v :: vs =>
    match jsonValueConv v, jsonValuesConv vs with
    | some j, some js => some (j :: js)
    | _, _ => none

/-- The `properties` dict: names in insertion order; a name whose value
list is empty is never materialized in the output `defaultdict`. -/
def jsonPropsConv : List (String × List PropValue) → Option (List (String × Json))
  | [] => some []
  | (n, vs) :: rest =>
    match jsonValuesConv vs, jsonPropsConv rest with
    | some js, some rs => if vs.isEmpty then some rs else some ((n, .arr js) :: rs)
    | _, _ => none
end

/-- Whether a `Json.obj` has a given key. -/
def Json.hasKey : Json → String → Bool
  | .obj fields, k => fields.any (fun f => f.1 = k)
  | _, _ => false

/-! ### Lemmas about the property dictionary -/

theorem getAllProps_setProps_self (ps : List (String × List PropValue))
    (n : String) (v : PropValue) :
    getAllProps (setProps ps n v) n = getAllProps ps n ++ [v] := by
  induction ps with
  | nil => simp [setProps, getAllProps]
  | cons p rest ih =>
    obtain ⟨k, vs⟩ := p
    by_cases hk : k = n
    · subst hk
      simp [setProps, getAllProps]
    · simp [setProps, getAllProps, hk, ih]

theorem getAllProps_setProps_ne (ps : List (String × List PropValue))
    (m n : String) (v : PropValue) (h : m ≠ n) :
    getAllProps (setProps ps m v) n = getAllProps ps n := by
  induction ps with
  | nil => simp [setProps, getAllProps, h]
  | cons p rest ih =>
    obtain ⟨k, vs⟩ := p
    by_cases hk : k = m
    · subst hk
      simp [setProps, getAllProps, h]
    · simp [setProps, getAllProps, hk, ih]

theorem get_all_set_self (it : Item) (n : String) (v : PropValue) :
    (it.set n v).get_all n = it.get_all n ++ [v] := by
  cases it
  simp [Item.set, Item.get_all, Item.props, getAllProps_setProps_self]

theorem get_all_set_ne (it : Item) (m n : String) (v : PropValue)
    (h : m ≠ n) : (it.set m v).get_all n = it.get_all n := by
  cases it
  simp [Item.set, Item.get_all, Item.props, getAllProps_setProps_ne _ _ _ _ h]

theorem mem_get_all_set (it : Item) (m n : String) (v w : PropValue)
    (h : w ∈ it.get_all n) : w ∈ (it.set m v).get_all n := by
  by_cases hmn : m = n
  · subst hmn
    rw [get_all_set_self]
    exact List.mem_append_left _ h
  · rw [get_all_set_ne it m n v hmn]
    exact h

theorem mem_get_all_foldl_pres (names : List String) (it : Item) (n : String)
    (v w : PropValue) (h : w ∈ it.get_all n) :
    w ∈ ((names.foldl (fun acc i => acc.set i v) it).get_all n) := by
  induction names generalizing it with
  | nil => simpa
  | cons m ms ih =>
    simp only [List.foldl_cons]
    exact ih (it.set m v) (mem_get_all_set it m n v w h)

theorem mem_get_all_foldl_set (names : List String) (it : Item) (n : String)
    (v : PropValue) (h : n ∈ names) :
    v ∈ ((names.foldl (fun acc i => acc.set i v) it).get_all n) := by
  induction names generalizing it with
  | nil => cases h
  | cons m ms ih =>
    simp only [List.foldl_cons]
    by_cases hnm : n ∈ ms
    · exact ih (it.set m v) hnm
    · have hm : m = n := by
        rcases List.mem_cons.1 h with h1 | h2
        · exact h1.symm
        · exact absurd h2 hnm
      subst hm
      apply mem_get_all_foldl_pres
      rw [get_all_set_self]
      exact List.mem_append_right _ (List.mem_singleton.2 rfl)

/-! ### Extraction never removes already-assigned property values -/

mutual
theorem extract_get_all_mono : ∀ (e : Elem) (item : Item) (n : String)
    (w : PropValue), w ∈ item.get_all n → w ∈ ((_extract e item).1.get_all n)
  | .mk t a tx cs tl, item, n, w, h => by
    have hm := extractChildren_get_all_mono cs item n w h
    simpa [_extract] using hm

theorem extractChildren_get_all_mono : ∀ (cs : List Elem) (item : Item)
    (n : String) (w : PropValue),
    w ∈ item.get_all n → w ∈ ((extractChildren cs item).1.get_all n)
  | [], item, n, w, h => by simpa [extractChildren] using h
  | child :: rest, item, n, w, h => by
    by_cases h1 : strTruthy (_attr child "itemprop") = true
    · by_cases h2 : _is_itemscope child = true
      · rw [extractChildren_cons_nested child rest item h1 h2]
        exact extractChildren_get_all_mono rest _ n w
          (mem_get_all_set _ _ _ _ _ h)
      · rw [extractChildren_cons_prop child rest item h1
          (Bool.eq_false_iff.2 h2)]
        exact extractChildren_get_all_mono rest _ n w
          (extract_get_all_mono child _ n w
            (mem_get_all_foldl_pres _ _ _ _ _ h))
    · by_cases h2 : _is_itemscope child = true
      · rw [extractChildren_cons_unlinked child rest item
          (Bool.eq_false_iff.2 h1) h2]
        exact extractChildren_get_all_mono rest item n w h
      · rw [extractChildren_cons_plain child rest item
          (Bool.eq_false_iff.2 h1) (Bool.eq_false_iff.2 h2)]
        exact extractChildren_get_all_mono rest _ n w
          (extract_get_all_mono child item n w h)
end

/-! ### The non-empty-value-list invariant -/

/-- The Invariant of the Item property mapping as an executable check:
every property name present maps to a non-empty value list. -/
def Item.wfB : Item → Bool
  | .mk _ _ ps => ps.all (fun p => !p.2.isEmpty)

theorem setProps_all_nonempty (ps : List (String × List PropValue))
    (n : String) (v : PropValue)
    (h : ps.all (fun p => !p.2.isEmpty) = true) :
    (setProps ps n v).all (fun p => !p.2.isEmpty) = true := by
  induction ps with
  | nil => simp [setProps]
  | cons p rest ih =>
    obtain ⟨k, vs⟩ := p
    simp only [List.all_cons, Bool.and_eq_true] at h
    by_cases hk : k = n
    · subst hk
      simp [setProps, h.2]
    · simp [setProps, hk, h.1, ih h.2]

theorem wfB_set (it : Item) (n : String) (v : PropValue)
    (h : it.wfB = true) : (it.set n v).wfB = true := by
  cases it
  simpa [Item.wfB, Item.set] using
    setProps_all_nonempty _ n v (by simpa [Item.wfB] using h)

theorem wfB_foldl_set (names : List String) (it : Item) (v : PropValue)
    (h : it.wfB = true) :
    (names.foldl (fun acc i => acc.set i v) it).wfB = true := by
  induction names generalizing it with
  | nil => simpa
  | cons m ms ih =>
    simp only [List.foldl_cons]
    exact ih _ (wfB_set it m v h)

mutual
theorem extract_wfB : ∀ (e : Elem) (item : Item), item.wfB = true →
    ((_extract e item).1).wfB = true
  | .mk t a tx cs tl, item, h => by
    have hm := extractChildren_wfB cs item h
    simpa [_extract] using hm

theorem extractChildren_wfB : ∀ (cs : List Elem) (item : Item),
    item.wfB = true → ((extractChildren cs item).1).wfB = true
  | [], item, h => by simpa [extractChildren] using h
  | child :: rest, item, h => by
    by_cases h1 : strTruthy (_attr child "itemprop") = true
    · by_cases h2 : _is_itemscope child = true
      · rw [extractChildren_cons_nested child rest item h1 h2]
        exact extractChildren_wfB rest _ (wfB_set _ _ _ h)
      · rw [extractChildren_cons_prop child rest item h1
          (Bool.eq_false_iff.2 h2)]
        exact extractChildren_wfB rest _
          (extract_wfB child _ (wfB_foldl_set _ _ _ h))
    · by_cases h2 : _is_itemscope child = true
      · rw [extractChildren_cons_unlinked child rest item
          (Bool.eq_false_iff.2 h1) h2]
        exact extractChildren_wfB rest item h
      · rw [extractChildren_cons_plain child rest item
          (Bool.eq_false_iff.2 h1) (Bool.eq_false_iff.2 h2)]
        exact extractChildren_wfB rest _ (extract_wfB child item h)
end

theorem init_wfB (t i : Option String) : (Item.init t i).wfB = true := rfl

theorem find_items_wfB (e : Elem) : ∀ x ∈ _find_items e, x.wfB = true := by
  by_cases h : _is_itemscope e = true
  · rw [find_items_scoped e h]
    intro x hx
    rcases List.mem_cons.1 hx with rfl | hmem
    · exact extract_wfB e (initItem e) (init_wfB _ _)
    · obtain ⟨u, hu, hxu⟩ := List.mem_flatMap.1 hmem
      exact find_items_wfB u x hxu
  · rw [find_items_not_scoped e (Bool.eq_false_iff.2 h)]
    intro x hx
    obtain ⟨u, hu, hxu⟩ := List.mem_flatMap.1 hx
    exact find_items_wfB u x hxu
termination_by sizeOf e
decreasing_by
  · exact extract_unlinked_sizeOf e (initItem e) u hu
  · exact Nat.lt_trans (List.sizeOf_lt_of_mem hu) (sizeOf_children_lt e)

theorem and_eq_true_split {a b : Bool} (h : (a && b) = true) :
    a = true ∧ b = true := by
  simpa using h

/-! ### The spec's description of computed text, and when the code meets it -/

mutual
/-- Modelled from the spec's words (claim C2): the text contribution of a
non-root element.  A script-tagged descendant contributes nothing from
inside its subtree, but its tail text (which sits among its siblings) is
still included; any other element contributes its leading text, its
descendants' contributions, and its tail text. -/
def specTextParts : Elem → List String
  | e@(.mk _ _ _ cs _) =>
    if e.tag = "script" then e.tail.toList
    else e.text.toList ++ specTextPartsList cs ++ e.tail.toList

def specTextPartsList : List Elem → List String
  | [] => []
  | c :: cs => specTextParts c ++ specTextPartsList cs
end

/-- Modelled from the spec's words (claim C2): the computed text of a node
is all the text in the node and its descendants in document order,
excluding text inside script descendants while keeping their tails; the
node's own tail lies outside the node. -/
def specComputedText : Elem → String
  | e@(.mk _ _ _ cs _) => String.join (e.text.toList ++ specTextPartsList cs)

mutual
/-- Every script-tagged element in the subtree has no child elements and
no tail text. -/
def scriptsBenign : Elem → Bool
  | e@(.mk _ _ _ cs _) =>
    (if e.tag = "script" then cs.isEmpty && e.tail.isNone else true) &&
      scriptsBenignList cs

def scriptsBenignList : List Elem → Bool
  | [] => true
  | c :: cs => scriptsBenign c && scriptsBenignList cs
end

mutual
theorem textiter_eq_spec : ∀ (e : Elem), scriptsBenign e = true →
    _textiter e = specTextParts e
  | .mk t a tx cs tl, h => by
    by_cases hs : t = "script"
    · subst hs
      have h' : ((cs.isEmpty && tl.isNone) && scriptsBenignList cs) = true := by
        simpa [scriptsBenign, Elem.tag, Elem.tail] using h
      obtain ⟨h1, _⟩ := and_eq_true_split h'
      obtain ⟨hcs, htl⟩ := and_eq_true_split h1
      have hcs' : cs = [] := by simpa using hcs
      have htl' : tl = none := by simpa using htl
      subst hcs'
      subst htl'
      simp [_textiter, specTextParts, textiterList, notScript, Elem.tag,
        Elem.tail]
    · have hh : ((if t = "script" then cs.isEmpty && tl.isNone else true) &&
          scriptsBenignList cs) = true := by
        simpa only [scriptsBenign, Elem.tag, Elem.tail] using h
      have hcs := textiterList_eq_spec cs (and_eq_true_split hh).2
      simp [_textiter, specTextParts, notScript, Elem.tag, Elem.text,
        Elem.tail, hs, hcs]

theorem textiterList_eq_spec : ∀ (l : List Elem),
    scriptsBenignList l = true → textiterList l = specTextPartsList l
  | [], _ => rfl
  | c :: cs, h => by
    obtain ⟨h1, h2⟩ := and_eq_true_split (by simpa [scriptsBenignList] using h)
    simp [textiterList, specTextPartsList, textiter_eq_spec c h1,
      textiterList_eq_spec cs h2]
end

/-! ### Documents with no itemscope at all -/

mutual
/-- No element of the subtree carries an itemscope attribute. -/
def allNoScope : Elem → Bool
  | e@(.mk _ _ _ cs _) => !_is_itemscope e && allNoScopeList cs

def allNoScopeList : List Elem → Bool
  | [] => true
  | c :: cs => allNoScope c && allNoScopeList cs
end

mutual
theorem find_items_noscope : ∀ (e : Elem), allNoScope e = true →
    _find_items e = []
  | .mk t a tx cs tl, h => by
    have hh : (!_is_itemscope (Elem.mk t a tx cs tl) &&
        allNoScopeList cs) = true := by
      simpa only [allNoScope] using h
    obtain ⟨h1, h2⟩ := and_eq_true_split hh
    rw [find_items_not_scoped _ (by simpa using h1)]
    simpa [Elem.children] using find_items_noscope_list cs h2

theorem find_items_noscope_list : ∀ (l : List Elem),
    allNoScopeList l = true → l.flatMap _find_items = []
  | [], _ => rfl
  | c :: cs, h => by
    obtain ⟨h1, h2⟩ := and_eq_true_split (by simpa [allNoScopeList] using h)
    simp [find_items_noscope c h1, find_items_noscope_list cs h2]
end

/-! ### What ends up in the unlinked list -/

/-- A direct child with itemscope but no truthy itemprop always lands in
the unlinked list. -/
theorem mem_unlinked_of_scoped_noprop :
    ∀ (cs : List Elem) (item : Item) (c : Elem), c ∈ cs →
      _is_itemscope c = true → strTruthy (_attr c "itemprop") = false →
      c ∈ (extractChildren cs item).2 := by
  intro cs
  induction cs with
  | nil =>
    intro item c hc
    cases hc
  | cons child rest ih =>
    intro item c hc hscope hprop
    rcases List.mem_cons.1 hc with rfl | hmem
    · rw [extractChildren_cons_unlinked c rest item hprop hscope]
      exact List.mem_cons_self _ _
    · by_cases h1 : strTruthy (_attr child "itemprop") = true
      · by_cases h2 : _is_itemscope child = true
        · rw [extractChildren_cons_nested child rest item h1 h2]
          exact List.mem_append_right _ (ih _ c hmem hscope hprop)
        · rw [extractChildren_cons_prop child rest item h1
            (Bool.eq_false_iff.2 h2)]
          exact List.mem_append_right _ (ih _ c hmem hscope hprop)
      · by_cases h2 : _is_itemscope child = true
        · rw [extractChildren_cons_unlinked child rest item
            (Bool.eq_false_iff.2 h1) h2]
          exact List.mem_cons_of_mem _ (ih _ c hmem hscope hprop)
        · rw [extractChildren_cons_plain child rest item
            (Bool.eq_false_iff.2 h1) (Bool.eq_false_iff.2 h2)]
          exact List.mem_append_right _ (ih _ c hmem hscope hprop)

mutual
/-- Conversely, every unlinked element has itemscope and no truthy
itemprop: a property-linked nested item element is never re-promoted. -/
theorem unlinked_flags_extract : ∀ (e : Elem) (item : Item) (x : Elem),
    x ∈ (_extract e item).2 →
    _is_itemscope x = true ∧ strTruthy (_attr x "itemprop") = false
  | .mk t a tx cs tl, item, x, h =>
    unlinked_flags_children cs item x (by simpa [_extract] using h)

theorem unlinked_flags_children : ∀ (cs : List Elem) (item : Item) (x : Elem),
    x ∈ (extractChildren cs item).2 →
    _is_itemscope x = true ∧ strTruthy (_attr x "itemprop") = false
  | [], item, x, h => by simp [extractChildren] at h
  | child :: rest, item, x, h => by
    by_cases h1 : strTruthy (_attr child "itemprop") = true
    · by_cases h2 : _is_itemscope child = true
      · rw [extractChildren_cons_nested child rest item h1 h2] at h
        rcases List.mem_append.1 h with hl | hr
        · exact unlinked_flags_extract child _ x hl
        · exact unlinked_flags_children rest _ x hr
      · rw [extractChildren_cons_prop child rest item h1
          (Bool.eq_false_iff.2 h2)] at h
        rcases List.mem_append.1 h with hl | hr
        · exact unlinked_flags_extract child _ x hl
        · exact unlinked_flags_children rest _ x hr
    · by_cases h2 : _is_itemscope child = true
      · rw [extractChildren_cons_unlinked child rest item
          (Bool.eq_false_iff.2 h1) h2] at h
        rcases List.mem_cons.1 h with rfl | hr
        · exact ⟨h2, Bool.eq_false_iff.2 h1⟩
        · exact unlinked_flags_children rest item x hr
      · rw [extractChildren_cons_plain child rest item
          (Bool.eq_false_iff.2 h1) (Bool.eq_false_iff.2 h2)] at h
        rcases List.mem_append.1 h with hl | hr
        · exact unlinked_flags_extract child item x hl
        · exact unlinked_flags_children rest _ x hr
end

/-! ### Concrete document fixtures -/

/-- The element `<span itemprop="name">Jo</span>`. -/
def c1span : Elem := .mk "span" [("itemprop", "name")] (some "Jo") [] none

/-- The element `<div itemprop="author" itemscope itemtype="Person">` with the name span inside. -/
def c1propEl : Elem :=
  .mk "div" [("itemprop", "author"), ("itemscope", ""), ("itemtype", "Person")]
    none [c1span] none

/-- The spec's nested-linked-item scenario document:
`<div itemscope><div itemprop="author" itemscope itemtype="Person"><span itemprop="name">Jo</span></div></div>` -/
def c1doc : Elem := .mk "div" [("itemscope", "")] none [c1propEl] none

def c1innerItem : Item :=
  .mk (some [URI.mk (some "Person")]) none [("name", [PropValue.str "Jo"])]

def c1outerItem : Item :=
  .mk none none [("author", [PropValue.item c1innerItem])]

theorem find_items_c1doc : _find_items c1doc = [c1outerItem] := by
  rw [find_items_scoped c1doc rfl]
  rw [show (_extract c1doc (initItem c1doc)).2 = ([] : List Elem) from rfl]
  rw [show (_extract c1doc (initItem c1doc)).1 = c1outerItem from rfl]
  simp

/-- The element `<div itemscope itemtype="X"></div>`. -/
def c5inner : Elem :=
  .mk "div" [("itemscope", ""), ("itemtype", "X")] none [] none

/-- The spec's unlinked-item scenario document:
`<div itemscope><div itemscope itemtype="X"></div></div>` -/
def c5doc : Elem := .mk "div" [("itemscope", "")] none [c5inner] none

def c5innerItem : Item := .mk (some [URI.mk (some "X")]) none []

/-- A variant whose unlinked inner item carries a property of its own,
showing the outer item does not descend into the unlinked subtree. -/
def c5span : Elem := .mk "span" [("itemprop", "name")] (some "Zed") [] none

def c5inner2 : Elem :=
  .mk "div" [("itemscope", ""), ("itemtype", "X")] none [c5span] none

def c5doc2 : Elem := .mk "div" [("itemscope", "")] none [c5inner2] none

theorem find_items_c5inner : _find_items c5inner = [c5innerItem] := by
  rw [find_items_scoped c5inner rfl]
  rw [show (_extract c5inner (initItem c5inner)).2 = ([] : List Elem) from rfl]
  rw [show (_extract c5inner (initItem c5inner)).1 = c5innerItem from rfl]
  simp

theorem find_items_c5doc :
    _find_items c5doc = [Item.mk none none [], c5innerItem] := by
  rw [find_items_scoped c5doc rfl]
  rw [show (_extract c5doc (initItem c5doc)).2 = [c5inner] from rfl]
  rw [show (_extract c5doc (initItem c5doc)).1 = Item.mk none none [] from rfl]
  simp [find_items_c5inner]

theorem find_items_c5inner2 :
    _find_items c5inner2 =
      [Item.mk (some [URI.mk (some "X")]) none
        [("name", [PropValue.str "Zed"])]] := by
  rw [find_items_scoped c5inner2 rfl]
  rw [show (_extract c5inner2 (initItem c5inner2)).2 = ([] : List Elem)
    from rfl]
  rw [show (_extract c5inner2 (initItem c5inner2)).1 =
    Item.mk (some [URI.mk (some "X")]) none [("name", [PropValue.str "Zed"])]
    from rfl]
  simp

theorem find_items_c5doc2 :
    _find_items c5doc2 = [Item.mk none none [],
      Item.mk (some [URI.mk (some "X")]) none
        [("name", [PropValue.str "Zed"])]] := by
  rw [find_items_scoped c5doc2 rfl]
  rw [show (_extract c5doc2 (initItem c5doc2)).2 = [c5inner2] from rfl]
  rw [show (_extract c5doc2 (initItem c5doc2)).1 = Item.mk none none []
    from rfl]
  simp [find_items_c5inner2]

/-! ### Claims C1, C5, C8, C9 -/

/-- Claim C1 is false on the code at the spec's own nested-item scenario:
`findItems` on `<div itemscope><div itemprop="author" itemscope
itemtype="Person"><span itemprop="name">Jo</span></div></div>` returns
only the outer Item; the nested Person Item (attached as the "author"
property value) is not an independent entry of the flat result list. -/
theorem C1_counterexample :
    _find_items c1doc = [c1outerItem] ∧ c1innerItem ∉ _find_items c1doc := by
  refine ⟨find_items_c1doc, ?_⟩
  rw [find_items_c1doc]
  simp [c1innerItem, c1outerItem, Item.mk.injEq]

/-- Claim C1, amended: `findItems` contains the Items of itemscope roots
and, recursively, of their unlinked descendants, in document order; an
Item attached as a nested property value via itemprop+itemscope appears
only inside its parent's property list and is NOT independently re-emitted
at top level — every re-promoted (unlinked) element carries itemscope and
no truthy itemprop, so a property-linked nested element is never one. -/
theorem C1_nested_in_parent_only :
    _find_items c1doc = [c1outerItem] ∧
    c1outerItem.get_all "author" = [PropValue.item c1innerItem] ∧
    (∀ (e : Elem) (item : Item) (x : Elem), x ∈ (_extract e item).2 →
      _is_itemscope x = true ∧ strTruthy (_attr x "itemprop") = false) :=
  ⟨find_items_c1doc, rfl, unlinked_flags_extract⟩

/-- Concrete instantiation of the amended claim C1. -/
theorem C1_nested_in_parent_only_witness :
    _find_items c1doc = [c1outerItem] ∧
    (_is_itemscope c5inner = true ∧
      strTruthy (_attr c5inner "itemprop") = false) :=
  ⟨C1_nested_in_parent_only.1,
   C1_nested_in_parent_only.2.2 c5doc (initItem c5doc) c5inner
     (by rw [show (_extract c5doc (initItem c5doc)).2 = [c5inner] from rfl]
         exact List.mem_singleton.2 rfl)⟩

/-- Claim C5: on `<div itemscope><div itemscope itemtype="X"></div></div>`
`findItems` returns exactly the outer Item (empty properties) followed by
the inner Item (with its own types); the outer item does not descend into
the unlinked subtree (variant document), and in general every direct child
with itemscope but no truthy itemprop is added to the unlinked list. -/
theorem C5_unlinked_promotion :
    _find_items c5doc = [Item.mk none none [], c5innerItem] ∧
    _find_items c5doc2 = [Item.mk none none [],
      Item.mk (some [URI.mk (some "X")]) none
        [("name", [PropValue.str "Zed"])]] ∧
    (∀ (e : Elem) (item : Item) (c : Elem), c ∈ e.children →
      _is_itemscope c = true → strTruthy (_attr c "itemprop") = false →
      c ∈ (_extract e item).2) := by
  refine ⟨find_items_c5doc, find_items_c5doc2, ?_⟩
  intro e item c hc hscope hprop
  rw [extract_eq_children]
  exact mem_unlinked_of_scoped_noprop e.children item c hc hscope hprop

/-- Concrete instantiation of claim C5. -/
theorem C5_unlinked_promotion_witness :
    _find_items c5doc = [Item.mk none none [], c5innerItem] ∧
    c5inner ∈ (_extract c5doc (initItem c5doc)).2 :=
  ⟨C5_unlinked_promotion.1,
   C5_unlinked_promotion.2.2 c5doc (initItem c5doc) c5inner
     (List.mem_singleton.2 rfl) rfl rfl⟩

/-- Claim C8: an Item's properties mapping exists and is empty at
construction; `set` preserves the invariant that every present name maps
to a non-empty value list; and every item `findItems` returns satisfies
the invariant. -/
theorem C8_props_invariant :
    (∀ (t i : Option String), (Item.init t i).props = []) ∧
    (∀ (it : Item) (n : String) (v : PropValue),
      it.wfB = true → (it.set n v).wfB = true) ∧
    (∀ (e : Elem), ∀ x ∈ _find_items e, x.wfB = true) :=
  ⟨fun _ _ => rfl, wfB_set, find_items_wfB⟩

/-- Concrete instantiation of claim C8. -/
theorem C8_props_invariant_witness :
    (Item.init (some "T") none).props = [] ∧
    ((Item.mk none none [("a", [PropValue.str "x"])]).set "a"
      (PropValue.str "y")).wfB = true ∧
    c1outerItem.wfB = true :=
  ⟨C8_props_invariant.1 (some "T") none,
   C8_props_invariant.2.1 _ "a" (PropValue.str "y") rfl,
   C8_props_invariant.2.2 c1doc c1outerItem
     (by rw [find_items_c1doc]; exact List.mem_singleton.2 rfl)⟩

/-- Claim C9: a document tree in which no element carries an itemscope
attribute yields an empty `findItems` result. -/
theorem C9_no_itemscope_empty (e : Elem) (h : allNoScope e = true) :
    _find_items e = [] :=
  find_items_noscope e h

/-- A small itemscope-free document. -/
def c9doc : Elem :=
  .mk "html" [] none
    [.mk "body" [] (some "hi")
      [.mk "p" [("class", "x")] (some "t") [] none] none] none

/-- Concrete instantiation of claim C9. -/
theorem C9_no_itemscope_empty_witness :
    allNoScope c9doc = true ∧ _find_items c9doc = [] :=
  ⟨rfl, C9_no_itemscope_empty c9doc rfl⟩

/-! ### Shared storage lemmas for property-bearing children -/

/-- A non-scoped property child's single computed value is appended under
every single-space-separated itemprop name, and survives the rest of the
extraction. -/
theorem prop_value_stored (child : Elem) (rest : List Elem) (item : Item)
    (prop : String) (hp : _attr child "itemprop" = some prop)
    (hne : prop ≠ "") (hns : _is_itemscope child = false) :
    ∀ n ∈ pySplit prop,
      _property_value child ∈
        ((extractChildren (child :: rest) item).1.get_all n) := by
  intro n hn
  have h1 : strTruthy (_attr child "itemprop") = true := by
    simp [strTruthy, hp, hne]
  rw [extractChildren_cons_prop child rest item h1 hns]
  refine extractChildren_get_all_mono rest _ n _ ?_
  refine extract_get_all_mono child _ n _ ?_
  simp only [hp, Option.getD_some]
  exact mem_get_all_foldl_set (pySplit prop) item n _ hn

/-- A scoped property child's fully-extracted nested Item is stored under
the literal, unsplit itemprop string, and survives the rest of the
extraction. -/
theorem nested_item_stored (child : Elem) (rest : List Elem) (item : Item)
    (prop : String) (hp : _attr child "itemprop" = some prop)
    (hne : prop ≠ "") (hs : _is_itemscope child = true) :
    PropValue.item (_extract child (initItem child)).1 ∈
      ((extractChildren (child :: rest) item).1.get_all prop) := by
  have h1 : strTruthy (_attr child "itemprop") = true := by
    simp [strTruthy, hp, hne]
  rw [extractChildren_cons_nested child rest item h1 hs]
  refine extractChildren_get_all_mono rest _ prop _ ?_
  simp only [hp, Option.getD_some]
  rw [get_all_set_self]
  exact List.mem_append_right _ (List.mem_singleton.2 rfl)

/-! ### Claim C2 -/

/-- The element `<div>A<script>S</script>B</div>`: tail "B" follows the script. -/
def c2docA : Elem :=
  .mk "div" [] (some "A") [.mk "script" [] (some "S") [] (some "B")] none

/-- A script with an element child (only possible in odd trees). -/
def c2docB : Elem :=
  .mk "div" [] none
    [.mk "script" [] (some "S") [.mk "b" [] (some "B") [] (some "T")] none]
    none

/-- Claim C2 is false on the code at a concrete input: the text "B"
following a script element's closing tag is dropped (the predicate also
filters the script's end event, losing its tail), and text inside a script
element's element children is kept (events are filtered per element, the
walk is not pruned at script subtrees). -/
theorem C2_counterexample :
    _text c2docA = "A" ∧ specComputedText c2docA = "AB" ∧
    ("A" : String) ≠ "AB" ∧
    _text c2docB = "BT" ∧ specComputedText c2docB = "" :=
  ⟨rfl, rfl, by decide, rfl, rfl⟩

/-- Claim C2, amended: the code excludes both the leading text and the
tail text of every script element while still descending into script
children; it coincides with the claimed description whenever the node
itself is not a script and no script descendant has child elements or tail
text. -/
theorem C2_text_spec (e : Elem) (h1 : e.tag ≠ "script")
    (h2 : scriptsBenign e = true) : _text e = specComputedText e := by
  cases e with
  | mk t a tx cs tl =>
    have hh : ((if t = "script" then cs.isEmpty && tl.isNone else true) &&
        scriptsBenignList cs) = true := by
      simpa only [scriptsBenign, Elem.tag, Elem.tail] using h2
    have hl := textiterList_eq_spec cs (and_eq_true_split hh).2
    have h1' : t ≠ "script" := by simpa [Elem.tag] using h1
    simp [_text, specComputedText, notScript, Elem.tag, Elem.text,
      Elem.children, h1', hl]

/-- The element `<div>A<script>S</script></div>` with tail text after the whole div. -/
def c2benign : Elem :=
  .mk "div" [] (some "A") [.mk "script" [] (some "S") [] none] (some "Z")

/-- Concrete instantiation of the amended claim C2. -/
theorem C2_text_spec_witness :
    c2benign.tag ≠ "script" ∧ scriptsBenign c2benign = true ∧
    _text c2benign = specComputedText c2benign :=
  ⟨by decide, rfl, C2_text_spec c2benign (by decide) rfl⟩

/-! ### Claim C3 -/

/-- The element `<div itemprop="a b" itemscope></div>`. -/
def c3scoped : Elem :=
  .mk "div" [("itemprop", "a b"), ("itemscope", "")] none [] none

def c3outer : Elem := .mk "div" [("itemscope", "")] none [c3scoped] none

/-- The element `<span itemprop="a&#9;b">X</span>` (tab-separated names). -/
def c3tab : Elem := .mk "span" [("itemprop", "a\tb")] (some "X") [] none

def c3outer2 : Elem := .mk "div" [("itemscope", "")] none [c3tab] none

/-- The element `<span itemprop="a b">X</span>`. -/
def c3span : Elem := .mk "span" [("itemprop", "a b")] (some "X") [] none

/-- Claim C3 is false on the code at concrete inputs: when the property
node also carries itemscope, the nested Item is stored once under the
literal key "a b" and is NOT fanned out to "a" and "b"; and a
tab-separated itemprop is not split at all (only single spaces split). -/
theorem C3_counterexample :
    ((_extract c3outer (initItem c3outer)).1.get_all "a" = [] ∧
      (_extract c3outer (initItem c3outer)).1.get_all "a b" =
        [PropValue.item (Item.mk none none [])]) ∧
    ((_extract c3outer2 (initItem c3outer2)).1.get_all "a" = [] ∧
      (_extract c3outer2 (initItem c3outer2)).1.get_all "a\tb" =
        [PropValue.str "X"]) :=
  ⟨⟨rfl, rfl⟩, ⟨rfl, rfl⟩⟩

/-- Claim C3, amended: only for property nodes WITHOUT itemscope is the
single computed value appended under every name in the single-space split
of itemprop (the same value instance under each name); a property node
WITH itemscope stores its nested Item once under the literal, unsplit
itemprop string. -/
theorem C3_itemprop_fanout :
    (∀ (child : Elem) (rest : List Elem) (item : Item) (prop : String),
      _attr child "itemprop" = some prop → prop ≠ "" →
      _is_itemscope child = false →
      ∀ n ∈ pySplit prop,
        _property_value child ∈
          ((extractChildren (child :: rest) item).1.get_all n)) ∧
    (∀ (child : Elem) (rest : List Elem) (item : Item) (prop : String),
      _attr child "itemprop" = some prop → prop ≠ "" →
      _is_itemscope child = true →
      PropValue.item (_extract child (initItem child)).1 ∈
        ((extractChildren (child :: rest) item).1.get_all prop)) :=
  ⟨prop_value_stored, nested_item_stored⟩

/-- Concrete instantiation of the amended claim C3: the same value under
both "a" and "b" for the unscoped node, and the literal key for the scoped
node. -/
theorem C3_itemprop_fanout_witness :
    PropValue.str "X" ∈
      ((extractChildren [c3span] (Item.mk none none [])).1.get_all "a") ∧
    PropValue.str "X" ∈
      ((extractChildren [c3span] (Item.mk none none [])).1.get_all "b") ∧
    PropValue.item (Item.mk none none []) ∈
      ((extractChildren [c3scoped] (Item.mk none none [])).1.get_all "a b") :=
  ⟨C3_itemprop_fanout.1 c3span [] (Item.mk none none []) "a b" rfl
      (by decide) rfl "a" (by decide),
   C3_itemprop_fanout.1 c3span [] (Item.mk none none []) "a b" rfl
      (by decide) rfl "b" (by decide),
   C3_itemprop_fanout.2 c3scoped [] (Item.mk none none []) "a b" rfl
      (by decide) rfl⟩

/-! ### Claim C6 -/

/-- Whether a stored value denotes a missing value: Python `None`, or a
`URI` wrapping `None` (from `URI(e.get(attrib))` with the attribute
absent); both serialize to JSON null. -/
def isNullValue : PropValue → Bool
  | .null => true
  | .uri u => u.string.isNone
  | _ => false

/-- The element `<img itemprop="photo">` with no src attribute. -/
def c6img : Elem := .mk "img" [("itemprop", "photo")] none [] none

/-- Claim C6: a property element whose tag has a mapped default attribute
that is absent yields a missing value without raising — Python `None` for
content/data/datetime-mapped tags, `URI(None)` for href/src-mapped tags —
and that value is still stored under every listed itemprop name rather
than the property being dropped. -/
theorem C6_missing_mapped_attr :
    (∀ (e : Elem) (a : String), property_values e.tag = some a →
      _attr e a = none → isNullValue (_property_value e) = true) ∧
    (∀ (child : Elem) (rest : List Elem) (item : Item) (prop a : String),
      _attr child "itemprop" = some prop → prop ≠ "" →
      _is_itemscope child = false →
      property_values child.tag = some a → _attr child a = none →
      ∀ n ∈ pySplit prop,
        _property_value child ∈
          ((extractChildren (child :: rest) item).1.get_all n)) := by
  constructor
  · intro e a ha hnone
    by_cases hh : a = "href" ∨ a = "src"
    · simp [_property_value, ha, hh, hnone, isNullValue]
    · simp [_property_value, ha, hh, hnone, isNullValue]
  · intro child rest item prop a hp hne hns _ _
    exact prop_value_stored child rest item prop hp hne hns

/-- Concrete instantiation of claim C6. -/
theorem C6_missing_mapped_attr_witness :
    isNullValue (_property_value c6img) = true ∧
    _property_value c6img ∈
      ((extractChildren [c6img] (Item.mk none none [])).1.get_all "photo") :=
  ⟨C6_missing_mapped_attr.1 c6img "src" rfl rfl,
   C6_missing_mapped_attr.2 c6img [] (Item.mk none none []) "photo" "src"
     rfl (by decide) rfl rfl rfl "photo" (by decide)⟩

/-! ### Claim C7 -/

/-- The element `<span content="">X</span>`: content present but empty. -/
def c7elem : Elem := .mk "span" [("content", "")] (some "X") [] none

/-- Claim C7 is false on the code at a concrete input: for an unmapped tag
with a present-but-EMPTY content attribute, the value is the computed text
"X", not the content attribute string "" (the source uses
`e.get("content") or _text(e)`, i.e. truthiness, not presence). -/
theorem C7_counterexample :
    _attr c7elem "content" = some "" ∧
    _property_value c7elem = .str "X" ∧
    PropValue.str "X" ≠ .str "" :=
  ⟨rfl, rfl, by simp⟩

/-- Claim C7, amended: for a tag with no mapped default attribute, the
value is the content attribute string when that attribute is present AND
non-empty, and the element's computed text when the content attribute is
absent or empty. -/
theorem C7_content_truthiness :
    (∀ (e : Elem) (s : String), property_values e.tag = none →
      _attr e "content" = some s → s ≠ "" → _property_value e = .str s) ∧
    (∀ (e : Elem), property_values e.tag = none →
      strTruthy (_attr e "content") = false →
      _property_value e = .str (_text e)) := by
  constructor
  · intro e s hm hc hs
    simp [_property_value, hm, hc, hs]
  · intro e hm hc
    match hcc : _attr e "content" with
    | none => simp [_property_value, hm, hcc]
    | some s =>
      have hse : s = "" := by simpa [strTruthy, hcc] using hc
      subst hse
      simp [_property_value, hm, hcc]

def c7a : Elem := .mk "span" [("content", "hi")] (some "T") [] none

def c7b : Elem := .mk "span" [] (some "T") [] none

/-- Concrete instantiation of the amended claim C7. -/
theorem C7_content_truthiness_witness :
    _property_value c7a = .str "hi" ∧ _property_value c7b = .str "T" :=
  ⟨C7_content_truthiness.1 c7a "hi" rfl rfl (by decide),
   C7_content_truthiness.2 c7b rfl rfl⟩

/-! ### Claim C4 -/

/-- Modelled from the spec's words (claim C4): splitting a string on
whitespace into (non-empty) tokens. -/
def splitWsChars : List Char → List (List Char)
  | [] => [[]]
  | c :: cs =>
    let r := splitWsChars cs
    if c.isWhitespace then [] :: r
    else
      match r with
      | [] => [[c]]
      | g :: gs => (c :: g) :: gs

/-- Modelled from the spec's words (claim C4): whitespace-splitting a
string into names/URIs. -/
def specWhitespaceSplit (s : String) : List String :=
  ((splitWsChars s.data).filter (fun g => g ≠ [])).map String.mk

/-- Claim C4 is false on the code at a concrete input: a tab-separated
itemtype (tab is whitespace) is NOT split — types becomes the single URI
"T1\tT2", not the two URIs whitespace-splitting yields; the source splits
on single space characters only (`itemtype.split(" ")`). -/
theorem C4_counterexample :
    (Item.init (some "T1\tT2") none).itemtype =
      some [URI.mk (some "T1\tT2")] ∧
    specWhitespaceSplit "T1\tT2" = ["T1", "T2"] ∧
    [URI.mk (some "T1\tT2")] ≠ ["T1", "T2"].map (fun s => URI.mk (some s)) :=
  ⟨rfl, rfl, by decide⟩

/-- Claim C4, amended: for an itemscope element with a non-empty itemtype
attribute, types is the ordered list of URIs obtained by splitting the
attribute value on single SPACE characters (`itemtype="T1 T2"` gives
`[T1, T2]`); types is absent when the attribute is absent. -/
theorem C4_itemtype_split :
    (∀ (e : Elem) (s : String), _attr e "itemtype" = some s → s ≠ "" →
      (initItem e).itemtype =
        some ((pySplit s).map (fun i => URI.mk (some i)))) ∧
    (∀ (e : Elem), _attr e "itemtype" = none →
      (initItem e).itemtype = none) := by
  constructor
  · intro e s hs hne
    simp [initItem, Item.init, Item.itemtype, hs, strTruthy, hne]
  · intro e hs
    simp [initItem, Item.init, Item.itemtype, hs, strTruthy]

def c4el : Elem :=
  .mk "div" [("itemscope", ""), ("itemtype", "T1 T2")] none [] none

def c4el2 : Elem := .mk "div" [("itemscope", "")] none [] none

/-- Concrete instantiation of the amended claim C4. -/
theorem C4_itemtype_split_witness :
    (initItem c4el).itemtype =
      some [URI.mk (some "T1"), URI.mk (some "T2")] ∧
    (initItem c4el2).itemtype = none :=
  ⟨C4_itemtype_split.1 c4el "T1 T2" rfl (by decide),
   C4_itemtype_split.2 c4el2 rfl⟩

/-! ### Claim C10 -/

/-- Claim C10: an itemscope element whose itemtype (resp. itemid)
attribute is present but equal to the empty string is treated as having no
itemtype (resp. itemid): nothing is stored on the constructed Item and the
serialized record has no "type" (resp. "id") key — presence is decided by
truthiness of the attribute value, not attribute existence. -/
theorem C10_empty_attr_truthiness :
    (∀ (e : Elem), _is_itemscope e = true → _attr e "itemtype" = some "" →
      (initItem e).itemtype = none ∧
      ∀ j, json_dict (initItem e) = some j → j.hasKey "type" = false) ∧
    (∀ (e : Elem), _is_itemscope e = true → _attr e "itemid" = some "" →
      (initItem e).itemid = none ∧
      ∀ j, json_dict (initItem e) = some j → j.hasKey "id" = false) := by
  constructor
  · intro e _ hit
    have hinit : initItem e = Item.mk none
        (if strTruthy (_attr e "itemid") then some (URI.mk (_attr e "itemid"))
         else none) [] := by
      simp [initItem, Item.init, hit, strTruthy]
    constructor
    · rw [hinit]
      rfl
    · intro j hj
      rw [hinit] at hj
      by_cases hb : strTruthy (_attr e "itemid") = true
      · rw [if_pos hb] at hj
        have hj' : Json.obj [("id", uriToJson (URI.mk (_attr e "itemid"))),
            ("properties", .obj [])] = j := by
          simpa [json_dict, typeField, idField, jsonPropsConv, Item.get,
            Item.get_all, Item.props, getAllProps, Item.itemtype,
            Item.itemid] using hj
        rw [← hj']
        simp [Json.hasKey]
      · rw [if_neg hb] at hj
        have hj' : Json.obj [("properties", .obj [])] = j := by
          simpa [json_dict, typeField, idField, jsonPropsConv, Item.get,
            Item.get_all, Item.props, getAllProps, Item.itemtype,
            Item.itemid] using hj
        rw [← hj']
        simp [Json.hasKey]
  · intro e _ hid
    have hinit : initItem e = Item.mk
        (if strTruthy (_attr e "itemtype") then
          some ((pySplit ((_attr e "itemtype").getD "")).map
            (fun i => URI.mk (some i)))
         else none) none [] := by
      simp [initItem, Item.init, hid, strTruthy]
    constructor
    · rw [hinit]
      rfl
    · intro j hj
      rw [hinit] at hj
      by_cases hb : strTruthy (_attr e "itemtype") = true
      · rw [if_pos hb] at hj
        by_cases hemp : ((pySplit ((_attr e "itemtype").getD "")).map
            (fun i => URI.mk (some i))).isEmpty = true
        · have hj' : Json.obj [("properties", .obj [])] = j := by
            simpa [json_dict, typeField, idField, jsonPropsConv, Item.get,
              Item.get_all, Item.props, getAllProps, Item.itemtype,
              Item.itemid, hemp] using hj
          rw [← hj']
          simp [Json.hasKey]
        · have hj' : Json.obj [("type", Json.arr
              (((pySplit ((_attr e "itemtype").getD "")).map
                (fun i => URI.mk (some i))).map uriToJson)),
              ("properties", .obj [])] = j := by
            simpa [json_dict, typeField, idField, jsonPropsConv, Item.get,
              Item.get_all, Item.props, getAllProps, Item.itemtype,
              Item.itemid, hemp] using hj
          rw [← hj']
          simp [Json.hasKey]
      · rw [if_neg hb] at hj
        have hj' : Json.obj [("properties", .obj [])] = j := by
          simpa [json_dict, typeField, idField, jsonPropsConv, Item.get,
            Item.get_all, Item.props, getAllProps, Item.itemtype,
            Item.itemid] using hj
        rw [← hj']
        simp [Json.hasKey]

/-- The element `<div itemscope itemtype="" itemid="">`. -/
def c10el : Elem :=
  .mk "div" [("itemscope", ""), ("itemtype", ""), ("itemid", "")] none [] none

/-- Concrete instantiation of claim C10. -/
theorem C10_empty_attr_truthiness_witness :
    (initItem c10el).itemtype = none ∧ (initItem c10el).itemid = none ∧
    Json.hasKey (Json.obj [("properties", .obj [])]) "type" = false ∧
    Json.hasKey (Json.obj [("properties", .obj [])]) "id" = false :=
  ⟨(C10_empty_attr_truthiness.1 c10el rfl rfl).1,
   (C10_empty_attr_truthiness.2 c10el rfl rfl).1,
   (C10_empty_attr_truthiness.1 c10el rfl rfl).2 _ rfl,
   (C10_empty_attr_truthiness.2 c10el rfl rfl).2 _ rfl⟩

end Microdata
